import Mathlib

/-!
Verification of the D03NoCppBindingsForProperties lint rule (repository buff).

The C++ source (src/checks/D03NoCppBindingsForProperties.cpp) implements a
single lint pass over a tree of declarative Elements.  We embed the element
model as an arena (a list of `ElementData` addressed by index, with a parent
index field, as suggested by the design notes of the specification), and embed
every function of the source file as an executable Lean definition.  Walks
along the parent chain are written with explicit fuel and return `none` when
the fuel runs out or a reference dangles, so that termination is a theorem
rather than an assumption.

QString operations are modelled on `List Char`:
`split('.')` keeps empty parts, `trimmed` drops surrounding whitespace,
`contains` is a case-sensitive substring test, and the regular expression
`^([a-zA-Z_][a-zA-Z0-9_]*\s*\.\s*[a-zA-Z_][a-zA-Z0-9_]*)` is compiled by hand
(its character classes are pairwise disjoint, so the greedy matcher below is
exactly the PCRE semantics).
-/

namespace D03

/-- Character class `[a-zA-Z_]` of the source regular expression. -/
def isIdentStart (c : Char) : Bool := c.isAlpha || c == '_'

/-- Character class `[a-zA-Z0-9_]` of the source regular expression. -/
def isIdentChar (c : Char) : Bool := c.isAlphanum || c == '_'

/-- Character class `\s` of PCRE2: space, tab, newline, vertical tab, form
feed, carriage return. -/
def isSpaceChar (c : Char) : Bool :=
  c == ' ' || c == '\t' || c == '\n' || c == '\r' || c == '\x0b' || c == '\x0c'

/-- The anchored pattern `^([a-zA-Z_][a-zA-Z0-9_]*\s*\.\s*[a-zA-Z_][a-zA-Z0-9_]*)`
from `isCppObjectBinding` (line 24 of the source).  Note that the pattern has
no leading `\s*`: the first character of the text must already start an
identifier. -/
def cppRefMatch : List Char → Bool
  | [] => false
  | c :: rest =>
    if isIdentStart c then
      match (rest.dropWhile isIdentChar).dropWhile isSpaceChar with
      | [] => false
      | d :: rest3 =>
        if d = '.' then
          match rest3.dropWhile isSpaceChar with
          | [] => false
          | e :: _ => isIdentStart e
        else false
    else false

/-- `QString::split('.')` with the default `Qt::KeepEmptyParts` behaviour. -/
def splitOnDot : List Char → List (List Char)
  | [] => [[]]
  | c :: rest =>
    if c = '.' then [] :: splitOnDot rest
    else
      match splitOnDot rest with
      | [] => [[c]]
      | h :: tl => (c :: h) :: tl

/-- `QString::trimmed()`: drop leading and trailing whitespace. -/
def qTrimL (cs : List Char) : List Char :=
  ((cs.dropWhile isSpaceChar).reverse.dropWhile isSpaceChar).reverse

/-- Does `cs` start with `pat`? -/
def leadsWith : List Char → List Char → Bool
  | _, [] => true
  | [], _ :: _ => false
  | c :: cs, p :: ps => c == p && leadsWith cs ps

/-- Does `cs` contain `pat` as a contiguous substring? -/
def hasSubstr : List Char → List Char → Bool
  | [], pat => pat.isEmpty
  | c :: cs, pat => leadsWith (c :: cs) pat || hasSubstr cs pat

/-- `QString::contains(QString)` with its default `Qt::CaseSensitive`. -/
def qContains (s pat : String) : Bool := hasSubstr s.data pat.data

/-- A source span: byte offset plus length, as in `QQmlSA::SourceLocation`. -/
structure SourceSpan where
  offset : Nat
  length : Nat
  deriving DecidableEq

/-- A property binding of an element (`QQmlSA::Binding`): target property
name, raw expression text and source span. -/
structure Binding where
  propertyName : String
  expressionText : String
  span : SourceSpan
  deriving DecidableEq

/-- One node of the element arena (`QQmlSA::Element`): declared id, base type
name, parent scope (arena index), child scopes (arena indices), property
bindings and source span. -/
structure ElementData where
  id : String
  baseTypeName : String
  parent : Option Nat
  children : List Nat
  bindings : List Binding
  span : SourceSpan
  deriving DecidableEq

/-- The element tree: an arena of elements addressed by index. -/
structure ElementTree where
  elems : List ElementData
  deriving DecidableEq

/-- The diagnostic category `qmlsaCppBindingAntiPattern` used by the pass. -/
inductive DiagTag where
  | cppBindingAntiPattern
  deriving DecidableEq

/-- A `QQmlSA::FixSuggestion`: hint text, insertions and replacements, each a
span paired with new text. -/
structure FixSuggestion where
  hint : String
  insertions : List (SourceSpan × String)
  replacements : List (SourceSpan × String)
  deriving DecidableEq

/-- One emitted warning: message, tag, location and its single fix
suggestion, exactly the arguments of `PassManager::emitWarning`. -/
structure Diagnostic where
  message : String
  tag : DiagTag
  location : SourceSpan
  fix : FixSuggestion
  deriving DecidableEq

/-- `QString::startsWith('Q')`: the first character is `Q`. -/
def startsWithQ (s : String) : Bool :=
  match s.data with
  | [] => false
  | c :: _ => c == 'Q'

/-- The fixed allow-list of well-known native base types (lines 55-65 of the
source). -/
def cppTypes : List String :=
  ["QObject", "QQuickItem", "QAbstractListModel", "QSortFilterProxyModel",
   "QTimer", "QSettings", "QFileSystemWatcher", "QNetworkAccessManager"]

/-- `isCppRegisteredType` (lines 52-69): the type name starts with `Q` or is a
member of the allow-list. -/
def isCppRegisteredType (typeName : String) : Bool :=
  startsWithQ typeName || decide (typeName ∈ cppTypes)

/-- The `std::any_of` body of `isCppRegisteredObject` (lines 42-44): some
direct child of scope `e` is declared with id `objectId` and a native base
type. -/
def findNativeChild (t : ElementTree) (objectId : String) (e : ElementData) : Bool :=
  e.children.any fun j =>
    match t.elems.get? j with
    | none => false
    | some child => child.id == objectId && isCppRegisteredType child.baseTypeName

/-- Some direct child of scope `e` is declared with id `objectId` and a
non-native base type (used to state the shadowing premise). -/
def findPlainChild (t : ElementTree) (objectId : String) (e : ElementData) : Bool :=
  e.children.any fun j =>
    match t.elems.get? j with
    | none => false
    | some child => child.id == objectId && !isCppRegisteredType child.baseTypeName

/-- The `while (scope.has_value())` loop of `isCppRegisteredObject`
(lines 40-48), with explicit fuel: starting from an optional scope index,
return `some true` as soon as a scope has a native child declared `objectId`,
move to the parent otherwise, and return `some false` when no scope remains.
`none` means the walk was cut off (fuel exhausted or dangling index). -/
def scopeSearch (t : ElementTree) (objectId : String) : Nat → Option Nat → Option Bool
  | _, none => some false
  | 0, some _ => none
  | fuel + 1, some i =>
    match t.elems.get? i with
    | none => none
    | some e =>
      if findNativeChild t objectId e then some true
      else scopeSearch t objectId fuel e.parent

/-- `isCppRegisteredObject` (lines 36-50): walk outward from the element's
parent scope. -/
def isCppRegisteredObject (t : ElementTree) (objectId : String) (i fuel : Nat) :
    Option Bool :=
  match t.elems.get? i with
  | none => none
  | some e => scopeSearch t objectId fuel e.parent

/-- `parseCppObjectReference` (lines 71-82): split on `.`; with at least two
parts, the trimmed first two parts are the object id and the property name. -/
def parseCppObjectReference (script : String) : Option (String × String) :=
  match splitOnDot script.data with
  | p0 :: p1 :: _ => some (String.mk (qTrimL p0), String.mk (qTrimL p1))
  | _ => none

/-- `isCppObjectBinding` (lines 20-34): the anchored pattern must match, then
the trimmed first dot-segment is looked up as a native object in the enclosing
scopes. -/
def isCppObjectBinding (t : ElementTree) (i fuel : Nat) (script : String) :
    Option Bool :=
  if cppRefMatch script.data then
    isCppRegisteredObject t (String.mk (qTrimL ((splitOnDot script.data).headD []))) i fuel
  else some false

/-- `isEnumBinding` (lines 84-96): when the script parses as
`objectId.propertyName`, the binding is exempt iff the property name contains
one of `State`, `Mode`, `Type`, `Policy` (case-sensitive) or the script
contains `::`. -/
def isEnumBinding (script : String) : Bool :=
  match parseCppObjectReference script with
  | some (_, propertyName) =>
    qContains propertyName "State" || qContains propertyName "Mode" ||
    qContains propertyName "Type" || qContains propertyName "Policy" ||
    qContains script "::"
  | none => false

/-- `getRootElement` (lines 130-137): follow parent links from the binding's
containing element (here: its arena index) until an element with no parent
scope is reached. -/
def getRootElement (t : ElementTree) : Nat → Nat → Option ElementData
  | 0, _ => none
  | fuel + 1, i =>
    match t.elems.get? i with
    | none => none
    | some e =>
      match e.parent with
      | none => some e
      | some j => getRootElement t fuel j

/-- `2 ^ 32`, the modulus of `quint32` arithmetic. -/
def u32 : Nat := 4294967296

/-- The insertion-offset computation of `emitCppBindingWarning` (lines
113-115): `offset() + length() - 1` in unsigned 32-bit arithmetic. -/
def insertOffset (off len : Nat) : Nat :=
  (off % u32 + len % u32 + (u32 - 1)) % u32

/-- The warning constructed by `emitCppBindingWarning` (lines 102-122) for a
binding, a reference `(objectId, propertyName)` and the root element's source
span: the fixed message and tag, the alias hint, one insertion just before
the root element's closing brace and one replacement of the binding's span by
the alias name. -/
def mkWarning (b : Binding) (objectId propertyName : String)
    (rootSpan : SourceSpan) : Diagnostic :=
  let aliasName := "als_" ++ objectId ++ "_" ++ propertyName
  { message :=
      "Property binding to C++ object detected. Consider using property alias instead.",
    tag := DiagTag.cppBindingAntiPattern,
    location := b.span,
    fix :=
      { hint :=
          "Add property alias: property alias " ++ aliasName ++ ": " ++
            objectId ++ "." ++ propertyName,
        insertions :=
          [({ offset := insertOffset rootSpan.offset rootSpan.length,
              length := rootSpan.length },
            "\n    property alias " ++ aliasName ++ ": " ++ objectId ++ "." ++
              propertyName)],
        replacements := [(b.span, aliasName)] } }

/-- `emitCppBindingWarning` (lines 98-128): resolve the root element and emit
the warning built by `mkWarning`.  `none` when root resolution was cut
off. -/
def emitCppBindingWarning (t : ElementTree) (i fuel : Nat) (b : Binding)
    (objectId propertyName : String) : Option Diagnostic :=
  match getRootElement t fuel i with
  | none => none
  | some rootE => some (mkWarning b objectId propertyName rootE.span)

/-- `cppObjectReference` (lines 12-18): unless the binding is exempt as an
enum access, emit the warning. -/
def cppObjectReference (t : ElementTree) (i fuel : Nat) (b : Binding)
    (objectId propertyName : String) : Option (List Diagnostic) :=
  if isEnumBinding b.expressionText then some []
  else (emitCppBindingWarning t i fuel b objectId propertyName).map fun d => [d]

/-- Modelled from the spec: the per-binding step of the driver
`checkCppObjectBindings`, whose body is not part of the source file (only its
caller `run` and its callees are).  Following §4.2 of the specification: a
binding is classified by `isCppObjectBinding`; on a match the reference is
extracted with `parseCppObjectReference` and handed to `cppObjectReference`;
otherwise nothing is emitted. -/
def processBinding (t : ElementTree) (i fuel : Nat) (b : Binding) :
    Option (List Diagnostic) :=
  match isCppObjectBinding t i fuel b.expressionText with
  | none => none
  | some false => some []
  | some true =>
    match parseCppObjectReference b.expressionText with
    | none => some []
    | some (objectId, propertyName) =>
      cppObjectReference t i fuel b objectId propertyName

/-- Process a list of bindings in order, concatenating their diagnostics. -/
def processBindings (t : ElementTree) (i fuel : Nat) :
    List Binding → Option (List Diagnostic)
  | [] => some []
  | b :: rest =>
    match processBinding t i fuel b, processBindings t i fuel rest with
    | some ds, some rs => some (ds ++ rs)
    | _, _ => none

/-- Modelled from the spec: `checkCppObjectBindings`, the driver called by
`run` (its body is not part of the source file).  Per §4.2 and §6 of the
specification it classifies each property binding of the element in order and
emits at most one diagnostic per qualifying binding. -/
def checkCppObjectBindings (t : ElementTree) (i fuel : Nat) :
    Option (List Diagnostic) :=
  match t.elems.get? i with
  | none => none
  | some e => processBindings t i fuel e.bindings

/-- `run` (lines 7-10): delegate to `checkCppObjectBindings`. -/
def run (t : ElementTree) (i fuel : Nat) : Option (List Diagnostic) :=
  checkCppObjectBindings t i fuel

/-- `shouldRun` (lines 1-5): the element has at least one property binding. -/
def shouldRun (t : ElementTree) (i : Nat) : Option Bool :=
  (t.elems.get? i).map fun e => !e.bindings.isEmpty

/-- The tree invariant guaranteed by the host: every parent link points to a
strictly smaller arena index, so parent chains cannot cycle.  Stated as a
boolean so concrete trees can be checked by evaluation. -/
def parentsDecreasing (t : ElementTree) : Bool :=
  (List.range t.elems.length).all fun i =>
    match t.elems.get? i with
    | none => true
    | some e =>
      match e.parent with
      | none => true
      | some j => decide (j < i)

/-- The candidate pattern as claimed by the specification: optional
whitespace, identifier, optional whitespace, dot, optional whitespace,
identifier, anchored at the start of the text.  Stated for comparison with
the source pattern `cppRefMatch`, which allows no leading whitespace. -/
def claimRefMatch (cs : List Char) : Bool :=
  cppRefMatch (cs.dropWhile isSpaceChar)

/-! ### Concrete example trees (used by witnesses and counterexamples) -/

/-- The binding `interval: cppObj.interval` from the worked example of the
specification. -/
def bInterval : Binding := ⟨"interval", "cppObj.interval", ⟨50, 15⟩⟩

/-- The example tree of the specification: a root `Item` (span 0..100)
containing a child with `id: cppObj` of base type `QTimer` and a sibling
element carrying the binding `interval: cppObj.interval`. -/
def tExample : ElementTree :=
  ⟨[⟨"", "Item", none, [1, 2], [], ⟨0, 100⟩⟩,
    ⟨"cppObj", "QTimer", some 0, [], [], ⟨10, 20⟩⟩,
    ⟨"", "Item", some 0, [], [bInterval], ⟨40, 30⟩⟩]⟩

/-- The diagnostic the pass emits for `bInterval` on `tExample`: insertion at
offset `0 + 100 - 1 = 99` inside the root element, alias
`als_cppObj_interval`. -/
def dExample : Diagnostic := mkWarning bInterval "cppObj" "interval" ⟨0, 100⟩

/-- A binding `width: x.y` used by the shadowing counterexample. -/
def bXY : Binding := ⟨"width", "x.y", ⟨45, 3⟩⟩

/-- Shadowing tree: the outer root declares a child `x` of native type
`QTimer`; an inner element declares a child `x` of the plain user type
`Rectangle`; element 4 lives inside the inner element and binds `x.y`. -/
def tShadow : ElementTree :=
  ⟨[⟨"", "Item", none, [1, 2], [], ⟨0, 200⟩⟩,
    ⟨"x", "QTimer", some 0, [], [], ⟨5, 10⟩⟩,
    ⟨"", "Item", some 0, [3, 4], [], ⟨20, 100⟩⟩,
    ⟨"x", "Rectangle", some 2, [], [], ⟨25, 10⟩⟩,
    ⟨"", "Item", some 2, [], [bXY], ⟨40, 30⟩⟩]⟩

/-- A binding whose expression starts with a space. -/
def bSpaced : Binding := ⟨"width", " a.b", ⟨30, 4⟩⟩

/-- The same binding without the leading space. -/
def bUnspaced : Binding := ⟨"width", "a.b", ⟨30, 3⟩⟩

/-- A binding whose expression matches no candidate pattern at all. -/
def bNoMatch : Binding := ⟨"width", "3x", ⟨30, 2⟩⟩

/-- Tree for the candidate-pattern counterexample: `a` is declared as a
native `QTimer` in the root, so only the pattern decides whether ` a.b`
versus `a.b` is flagged. -/
def tPattern : ElementTree :=
  ⟨[⟨"", "Item", none, [1, 2], [], ⟨0, 100⟩⟩,
    ⟨"a", "QTimer", some 0, [], [], ⟨10, 20⟩⟩,
    ⟨"", "Item", some 0, [], [bSpaced, bUnspaced], ⟨40, 30⟩⟩]⟩

/-- A binding `v: q.v` used by the empty-root-span tree. -/
def bQV : Binding := ⟨"v", "q.v", ⟨60, 3⟩⟩

/-- Pathological tree whose root element has an empty source span starting at
offset 5. -/
def tEmptySpan : ElementTree :=
  ⟨[⟨"", "Item", none, [1, 2], [], ⟨5, 0⟩⟩,
    ⟨"q", "QTimer", some 0, [], [], ⟨10, 20⟩⟩,
    ⟨"", "Item", some 0, [], [bQV], ⟨40, 30⟩⟩]⟩

/-- A binding `width: q.val` placed directly on a root element. -/
def bRootBinding : Binding := ⟨"width", "q.val", ⟨40, 5⟩⟩

/-- The root element of `tRootBound`: no parent, one native child `q`, and a
binding `q.val` written directly on the root itself. -/
def rootWithBinding : ElementData := ⟨"", "Item", none, [1], [bRootBinding], ⟨0, 50⟩⟩

/-- Tree whose root element itself carries a binding that references its own
native child `q`. -/
def tRootBound : ElementTree :=
  ⟨[rootWithBinding, ⟨"q", "QTimer", some 0, [], [], ⟨10, 20⟩⟩]⟩

/-! ### Helper lemmas -/

theorem splitOnDot_ne_nil (cs : List Char) : splitOnDot cs ≠ [] := by
  induction cs with
  | nil => simp [splitOnDot]
  | cons c rest ih =>
    simp only [splitOnDot]
    split
    · simp
    · split
      · simp
      · simp

theorem splitOnDot_cons_dot (rest : List Char) :
    splitOnDot ('.' :: rest) = [] :: splitOnDot rest := by
  simp [splitOnDot]

theorem splitOnDot_cons_ne {c : Char} (hc : ¬c = '.') (rest : List Char) :
    splitOnDot (c :: rest) =
      match splitOnDot rest with
      | [] => [[c]]
      | h :: tl => (c :: h) :: tl := by
  simp [splitOnDot, hc]

theorem splitOnDot_no_dot {cs : List Char} (h : '.' ∉ cs) : splitOnDot cs = [cs] := by
  induction cs with
  | nil => rfl
  | cons c rest ih =>
    have hc : ¬(c = '.') := by rintro rfl; exact h (List.mem_cons_self _ _)
    have hr : '.' ∉ rest := fun hm => h (List.mem_cons_of_mem _ hm)
    simp only [splitOnDot, if_neg hc, ih hr]

theorem splitOnDot_append {xs : List Char} (ys : List Char) (h : '.' ∉ xs) :
    splitOnDot (xs ++ '.' :: ys) = xs :: splitOnDot ys := by
  induction xs with
  | nil => simp [splitOnDot]
  | cons c rest ih =>
    have hc : ¬(c = '.') := by rintro rfl; exact h (List.mem_cons_self _ _)
    have hr : '.' ∉ rest := fun hm => h (List.mem_cons_of_mem _ hm)
    rw [List.cons_append, splitOnDot_cons_ne hc, ih hr]

theorem two_le_splitOnDot_length {cs : List Char} (h : '.' ∈ cs) :
    2 ≤ (splitOnDot cs).length := by
  induction cs with
  | nil => cases h
  | cons c rest ih =>
    by_cases hc : c = '.'
    · subst hc
      rw [splitOnDot_cons_dot, List.length_cons]
      have hne := splitOnDot_ne_nil rest
      have h1 : 1 ≤ (splitOnDot rest).length := by
        cases hs : splitOnDot rest with
        | nil => exact absurd hs hne
        | cons a tl => simp
      omega
    · have hr : '.' ∈ rest := by
        rcases List.mem_cons.mp h with h1 | h2
        · exact absurd h1.symm hc
        · exact h2
      have h2 := ih hr
      rw [splitOnDot_cons_ne hc]
      cases hs : splitOnDot rest with
      | nil => exact absurd hs (splitOnDot_ne_nil rest)
      | cons a tl =>
        rw [hs] at h2
        simpa using h2

theorem mem_of_mem_dropWhile {p : Char → Bool} {cs : List Char} {a : Char}
    (h : a ∈ cs.dropWhile p) : a ∈ cs := by
  induction cs with
  | nil => simp at h
  | cons c rest ih =>
    cases hp : p c with
    | true =>
      rw [List.dropWhile_cons, hp] at h
      exact List.mem_cons_of_mem _ (ih (by simpa using h))
    | false =>
      rw [List.dropWhile_cons, hp] at h
      simpa using h

theorem dot_mem_of_cppRefMatch : ∀ {cs : List Char}, cppRefMatch cs = true → '.' ∈ cs := by
  intro cs h
  cases cs with
  | nil => simp [cppRefMatch] at h
  | cons c rest =>
    rw [cppRefMatch] at h
    split at h
    · split at h
      · cases h
      · rename_i d rest3 heq
        split at h
        · rename_i hd
          subst hd
          have hmem : '.' ∈ (rest.dropWhile isIdentChar).dropWhile isSpaceChar := by
            rw [heq]; exact List.mem_cons_self _ _
          exact List.mem_cons_of_mem _ (mem_of_mem_dropWhile (mem_of_mem_dropWhile hmem))
        · cases h
    · cases h

theorem parse_eq_of_splitOnDot {s : String} {p0 p1 : List Char} {rest : List (List Char)}
    (h : splitOnDot s.data = p0 :: p1 :: rest) :
    parseCppObjectReference s = some (String.mk (qTrimL p0), String.mk (qTrimL p1)) := by
  unfold parseCppObjectReference
  rw [h]

theorem splitOnDot_shape_of_parse {s o p : String}
    (h : parseCppObjectReference s = some (o, p)) :
    ∃ p0 p1 rest, splitOnDot s.data = p0 :: p1 :: rest ∧
      o = String.mk (qTrimL p0) ∧ p = String.mk (qTrimL p1) := by
  unfold parseCppObjectReference at h
  cases hs : splitOnDot s.data with
  | nil => rw [hs] at h; cases h
  | cons a tl =>
    cases tl with
    | nil => rw [hs] at h; cases h
    | cons b tl2 =>
      rw [hs] at h
      simp only [Option.some.injEq, Prod.mk.injEq] at h
      exact ⟨a, b, tl2, rfl, h.1.symm, h.2.symm⟩

theorem parse_isSome_of_dot_mem {s : String} (h : '.' ∈ s.data) :
    ∃ o p, parseCppObjectReference s = some (o, p) := by
  have hlen := two_le_splitOnDot_length h
  cases hs : splitOnDot s.data with
  | nil => exact absurd hs (splitOnDot_ne_nil _)
  | cons a tl =>
    cases tl with
    | nil => rw [hs] at hlen; simp at hlen
    | cons b tl2 => exact ⟨_, _, parse_eq_of_splitOnDot hs⟩

theorem scopeSearch_none_parent (t : ElementTree) (x : String) (fuel : Nat) :
    scopeSearch t x fuel none = some false := by
  cases fuel <;> rfl

theorem parent_lt_of_parentsDecreasing {t : ElementTree} (hpd : parentsDecreasing t = true)
    {i j : Nat} {e : ElementData} (hi : t.elems.get? i = some e) (hj : e.parent = some j) :
    j < i := by
  have hilen : i < t.elems.length := by
    by_contra hge
    rw [List.get?_eq_none.mpr (Nat.le_of_not_lt hge)] at hi
    cases hi
  have hall := List.all_eq_true.mp hpd i (List.mem_range.mpr hilen)
  simp only [hi, hj, decide_eq_true_eq] at hall
  exact hall

theorem scopeSearch_isSome {t : ElementTree} (hpd : parentsDecreasing t = true) (x : String) :
    ∀ p, p < t.elems.length → ∀ fuel, p < fuel →
      ∃ b, scopeSearch t x fuel (some p) = some b := by
  intro p
  induction p using Nat.strong_induction_on with
  | _ p ih =>
    intro hp fuel hfuel
    obtain ⟨f, rfl⟩ : ∃ f, fuel = f + 1 := ⟨fuel - 1, by omega⟩
    obtain ⟨e, he⟩ : ∃ e, t.elems.get? p = some e := by
      cases hq : t.elems.get? p with
      | none => rw [List.get?_eq_none] at hq; omega
      | some e => exact ⟨e, rfl⟩
    simp only [scopeSearch, he]
    by_cases hfc : findNativeChild t x e = true
    · rw [if_pos hfc]; exact ⟨true, rfl⟩
    · rw [if_neg hfc]
      cases hpar : e.parent with
      | none => rw [scopeSearch_none_parent]; exact ⟨false, rfl⟩
      | some j =>
        have hj : j < p := parent_lt_of_parentsDecreasing hpd he hpar
        exact ih j hj (Nat.lt_trans hj hp) f (by omega)

theorem getRootElement_isSome {t : ElementTree} (hpd : parentsDecreasing t = true) :
    ∀ i, i < t.elems.length → ∀ fuel, i < fuel →
      ∃ er, getRootElement t fuel i = some er ∧ er.parent = none := by
  intro i
  induction i using Nat.strong_induction_on with
  | _ i ih =>
    intro hi fuel hfuel
    obtain ⟨f, rfl⟩ : ∃ f, fuel = f + 1 := ⟨fuel - 1, by omega⟩
    obtain ⟨e, he⟩ : ∃ e, t.elems.get? i = some e := by
      cases hq : t.elems.get? i with
      | none => rw [List.get?_eq_none] at hq; omega
      | some e => exact ⟨e, rfl⟩
    simp only [getRootElement, he]
    cases hpar : e.parent with
    | none => exact ⟨e, rfl, hpar⟩
    | some j =>
      have hj : j < i := parent_lt_of_parentsDecreasing hpd he hpar
      exact ih j hj (Nat.lt_trans hj hi) f (by omega)

theorem processBindings_all_nil {t : ElementTree} {i fuel : Nat}
    (hall : ∀ b, processBinding t i fuel b = some []) :
    ∀ bs, processBindings t i fuel bs = some [] := by
  intro bs
  induction bs with
  | nil => rfl
  | cons b rest ih => simp [processBindings, hall b, ih]

/-! ### Claim theorems -/

/-- C9: the native-type heuristic is extensionally equal to the bare prefix
test: `isCppRegisteredType t` returns true if and only if `t` starts with the
character `Q`, because every entry of the fixed allow-list itself starts with
`Q`, making the allow-list membership check redundant. -/
theorem c9_native_heuristic_eq_q_test (typeName : String) :
    isCppRegisteredType typeName = startsWithQ typeName := by
  unfold isCppRegisteredType
  cases h : startsWithQ typeName
  · simp only [Bool.false_or]
    cases hc : decide (typeName ∈ cppTypes)
    · rfl
    · exfalso
      have hm := of_decide_eq_true hc
      fin_cases hm <;> exact absurd h (by decide)
  · simp

/-- C10: for every identifier and every element with no parent scope (a
declaration root), `isCppRegisteredObject` returns false — the search
inspects only strictly enclosing scopes, never the element's own children —
and consequently the driver emits no diagnostic at all for bindings written
directly on a root element. -/
theorem c10_root_never_flagged (t : ElementTree) (i fuel : Nat) (x : String)
    (e : ElementData) (h1 : t.elems.get? i = some e) (h2 : e.parent = none) :
    isCppRegisteredObject t x i fuel = some false ∧
      checkCppObjectBindings t i fuel = some [] := by
  have hreg : ∀ y : String, isCppRegisteredObject t y i fuel = some false := by
    intro y
    simp only [isCppRegisteredObject, h1, h2, scopeSearch_none_parent]
  refine ⟨hreg x, ?_⟩
  simp only [checkCppObjectBindings, h1]
  refine processBindings_all_nil (fun b => ?_) e.bindings
  have hcb : isCppObjectBinding t i fuel b.expressionText = some false := by
    unfold isCppObjectBinding
    by_cases hm : cppRefMatch b.expressionText.data = true
    · rw [if_pos hm, hreg]
    · rw [if_neg hm]
  simp only [processBinding, hcb]

/-- C10 witness: on `tRootBound` the root's own binding `q.val` references
the root's native child `q`, yet resolution returns false and no diagnostic
is produced. -/
theorem c10_root_never_flagged_witness :
    isCppRegisteredObject tRootBound "q" 0 3 = some false ∧
      checkCppObjectBindings tRootBound 0 3 = some [] :=
  c10_root_never_flagged tRootBound 0 3 "q" rootWithBinding rfl rfl

/-- C8: under the precondition that every parent link points to a strictly
smaller arena index (the element graph is a tree), root-element resolution
terminates and returns an element with no parent scope, and the outward
scope-resolution walk terminates for every queried identifier. -/
theorem c8_walks_terminate (t : ElementTree) (i fuel : Nat)
    (hpd : parentsDecreasing t = true) (hi : i < t.elems.length)
    (hf : i < fuel) :
    (∃ er, getRootElement t fuel i = some er ∧ er.parent = none) ∧
      ∀ x : String, ∃ b, isCppRegisteredObject t x i fuel = some b := by
  refine ⟨getRootElement_isSome hpd i hi fuel hf, fun x => ?_⟩
  obtain ⟨e, he⟩ : ∃ e, t.elems.get? i = some e := by
    cases hq : t.elems.get? i with
    | none => rw [List.get?_eq_none] at hq; omega
    | some e => exact ⟨e, rfl⟩
  simp only [isCppRegisteredObject, he]
  cases hpar : e.parent with
  | none => exact ⟨false, scopeSearch_none_parent t x fuel⟩
  | some j =>
    have hj : j < i := parent_lt_of_parentsDecreasing hpd he hpar
    exact scopeSearch_isSome hpd x j (Nat.lt_trans hj hi) fuel (Nat.lt_trans hj hf)

/-- C8 witness: on the example tree both walks from element 2 with fuel 3
terminate; the root walk reaches the parentless root element. -/
theorem c8_walks_terminate_witness :
    parentsDecreasing tExample = true ∧
      (∃ er, getRootElement tExample 3 2 = some er ∧ er.parent = none) ∧
        ∀ x : String, ∃ b, isCppRegisteredObject tExample x 2 3 = some b :=
  ⟨by decide, c8_walks_terminate tExample 2 3 (by decide) (by decide) (by decide)⟩

/-- C2 counterexample: in `tShadow` the scope nearest to element 4 declares
`x` with the plain user type `Rectangle`, and only the farther root scope
declares `x` natively; the claim says resolution must return false and no
diagnostic may be produced, yet the code resolves `x` to the outer native
declaration and emits one diagnostic for `x.y`. -/
theorem c2_shadowing_counterexample :
    isCppRegisteredObject tShadow "x" 4 10 = some true ∧
      (processBinding tShadow 4 10 bXY).map List.length = some 1 := by
  decide

/-- C2 as amended: scope resolution is not shadow-respecting.  A scope that
declares `x` only with a non-native base type does not stop the outward walk:
when the parent scope of the element declares `x` as a plain type (and has no
native declaration of `x`) while the grandparent scope declares `x` with a
native base type, `isCppRegisteredObject` still returns true, so a binding
`x.y` inside the element is flagged. -/
theorem c2_outer_native_wins (t : ElementTree) (x : String) (i p g f : Nat)
    (e pe ge : ElementData)
    (hi : t.elems.get? i = some e) (hp : e.parent = some p)
    (hpe : t.elems.get? p = some pe)
    (_hplainDecl : findPlainChild t x pe = true)
    (hnoNative : findNativeChild t x pe = false)
    (hg : pe.parent = some g) (hge : t.elems.get? g = some ge)
    (hnative : findNativeChild t x ge = true) :
    isCppRegisteredObject t x i (f + 2) = some true := by
  have h1 : scopeSearch t x (f + 1) (some g) = some true := by
    simp only [scopeSearch, hge]
    rw [if_pos hnative]
  have h2 : scopeSearch t x (f + 1 + 1) (some p) = some true := by
    simp only [scopeSearch, hpe]
    rw [if_neg (by simp [hnoNative]), hg, h1]
  simp only [isCppRegisteredObject, hi, hp]
  exact h2

/-- C2 amended witness: the general shadowing theorem applied to `tShadow`
at element 4. -/
theorem c2_outer_native_wins_witness :
    isCppRegisteredObject tShadow "x" 4 2 = some true :=
  c2_outer_native_wins tShadow "x" 4 2 0 0 _ _ _ rfl rfl rfl (by decide) (by decide)
    rfl rfl (by decide)

/-- C3 counterexample: the exemption vocabulary is matched case-sensitively,
so `obj.currentState` is exempted but `obj.STATE` is not, contradicting the
claim that both are. -/
theorem c3_case_counterexample :
    isEnumBinding "obj.currentState" = true ∧ isEnumBinding "obj.STATE" = false := by
  decide

/-- C3 as amended: the enum exemption matches the vocabulary `State`, `Mode`,
`Type`, `Policy` as a case-SENSITIVE substring of the parsed (trimmed)
property name, or exempts on a `::` in the whole expression: for dot-free
`objId` and `prop` the exemption of `objId.prop` is exactly that
disjunction.  In particular `obj.currentState` is exempted while `obj.STATE`
is not. -/
theorem c3_exemption_case_sensitive (objId prop : String)
    (ho : '.' ∉ objId.data) (hq : '.' ∉ prop.data) :
    isEnumBinding (objId ++ "." ++ prop) =
      (qContains (String.mk (qTrimL prop.data)) "State" ||
       qContains (String.mk (qTrimL prop.data)) "Mode" ||
       qContains (String.mk (qTrimL prop.data)) "Type" ||
       qContains (String.mk (qTrimL prop.data)) "Policy" ||
       qContains (objId ++ "." ++ prop) "::") := by
  have hdata : (objId ++ "." ++ prop).data = objId.data ++ '.' :: prop.data := by
    simp [String.data_append]
  have hsplit : splitOnDot (objId ++ "." ++ prop).data = objId.data :: [prop.data] := by
    rw [hdata, splitOnDot_append _ ho, splitOnDot_no_dot hq]
  have hparse := parse_eq_of_splitOnDot (s := objId ++ "." ++ prop) hsplit
  simp only [isEnumBinding, hparse]

/-- C3 amended witness: the amended exemption equation evaluated at the
concrete reference `obj.currentState`. -/
theorem c3_exemption_case_sensitive_witness :
    isEnumBinding ("obj" ++ "." ++ "currentState") =
      (qContains (String.mk (qTrimL "currentState".data)) "State" ||
       qContains (String.mk (qTrimL "currentState".data)) "Mode" ||
       qContains (String.mk (qTrimL "currentState".data)) "Type" ||
       qContains (String.mk (qTrimL "currentState".data)) "Policy" ||
       qContains ("obj" ++ "." ++ "currentState") "::") :=
  c3_exemption_case_sensitive "obj" "currentState" (by decide) (by decide)

/-- C4 counterexample: `Namespace::Value` contains the scope-qualification
token `::`, yet `isEnumBinding` returns false for it (the expression has no
dot, so the parse step fails before the `::` test is reached), contradicting
the claim that `isEnumAccess` returns true for every `::` expression. -/
theorem c4_qualified_no_dot_counterexample :
    qContains "Namespace::Value" "::" = true ∧
      isEnumBinding "Namespace::Value" = false := by
  decide

/-- C4 as amended: an expression containing `::` is exempted by
`isEnumBinding` whenever it also contains a dot (so that candidate parsing
succeeds); and in every case — with or without a dot — a binding whose
expression contains `::` never produces a diagnostic. -/
theorem c4_qualified_access_exempt (script : String)
    (h : qContains script "::" = true) :
    ('.' ∈ script.data → isEnumBinding script = true) ∧
      ∀ (t : ElementTree) (i fuel : Nat) (b : Binding) (ds : List Diagnostic),
        b.expressionText = script → processBinding t i fuel b = some ds → ds = [] := by
  constructor
  · intro hdot
    obtain ⟨o, p, hp⟩ := parse_isSome_of_dot_mem hdot
    simp [isEnumBinding, hp, h]
  · intro t i fuel b ds hb hpb
    subst hb
    cases hcb : isCppObjectBinding t i fuel b.expressionText with
    | none =>
      simp only [processBinding, hcb] at hpb
      cases hpb
    | some v =>
      cases v with
      | false =>
        simp only [processBinding, hcb, Option.some.injEq] at hpb
        exact hpb.symm
      | true =>
        have hm : cppRefMatch b.expressionText.data = true := by
          by_contra hneg
          unfold isCppObjectBinding at hcb
          rw [if_neg hneg] at hcb
          cases hcb
        obtain ⟨o, p, hp⟩ := parse_isSome_of_dot_mem (dot_mem_of_cppRefMatch hm)
        have henum : isEnumBinding b.expressionText = true := by
          simp [isEnumBinding, hp, h]
        simp only [processBinding, hcb, hp, cppObjectReference, henum, if_true,
          Option.some.injEq] at hpb
        exact hpb.symm

/-- C4 amended witness: `a.b::c` contains both a dot and `::` and is
exempted. -/
theorem c4_qualified_access_exempt_witness : isEnumBinding "a.b::c" = true :=
  (c4_qualified_access_exempt "a.b::c" (by decide)).1 (by decide)

/-- C5 counterexample: the source pattern allows no leading whitespace.  The
expression ` a.b` matches the claimed pattern (optional whitespace first),
but the code treats it as no candidate and emits nothing, although the same
scope makes the unspaced `a.b` produce a diagnostic. -/
theorem c5_leading_whitespace_counterexample :
    claimRefMatch " a.b".data = true ∧ cppRefMatch " a.b".data = false ∧
      processBinding tPattern 2 3 bSpaced = some [] ∧
      (processBinding tPattern 2 3 bUnspaced).map List.length = some 1 := by
  decide

/-- C5 as amended: the candidate pattern is "identifier, optional whitespace,
dot, optional whitespace, identifier" anchored at the start with NO leading
whitespace allowed; every non-matching expression yields no candidate and no
diagnostic, and only the first two dot-segments form the candidate: a deeper
chain `o.p.r` still yields `objectId = o`, `propertyName = p` (trimmed). -/
theorem c5_pattern_and_first_two_segments (script : String) (t : ElementTree)
    (i fuel : Nat) (b : Binding) (o p r : String)
    (ho : '.' ∉ o.data) (hp2 : '.' ∉ p.data)
    (hm : cppRefMatch script.data = false) (hb : b.expressionText = script) :
    processBinding t i fuel b = some [] ∧
      parseCppObjectReference (o ++ "." ++ p ++ "." ++ r) =
        some (String.mk (qTrimL o.data), String.mk (qTrimL p.data)) := by
  constructor
  · subst hb
    have hcb : isCppObjectBinding t i fuel b.expressionText = some false := by
      unfold isCppObjectBinding
      rw [if_neg (by simp [hm])]
    simp only [processBinding, hcb]
  · have hdata : (o ++ "." ++ p ++ "." ++ r).data
        = o.data ++ '.' :: (p.data ++ '.' :: r.data) := by
      simp [String.data_append]
    have hsplit : splitOnDot (o ++ "." ++ p ++ "." ++ r).data
        = o.data :: p.data :: splitOnDot r.data := by
      rw [hdata, splitOnDot_append _ ho, splitOnDot_append _ hp2]
    exact parse_eq_of_splitOnDot hsplit

/-- C5 amended witness: the non-matching expression `3x` yields no
diagnostic, and `a.b.c` parses to the reference `(a, b)`. -/
theorem c5_pattern_and_first_two_segments_witness :
    processBinding tPattern 2 3 bNoMatch = some [] ∧
      parseCppObjectReference ("a" ++ "." ++ "b" ++ "." ++ "c") =
        some (String.mk (qTrimL "a".data), String.mk (qTrimL "b".data)) :=
  c5_pattern_and_first_two_segments "3x" tPattern 2 3 bNoMatch "a" "b" "c"
    (by decide) (by decide) (by decide) rfl

/-- C6 counterexample: on the worked example the insertion text actually
emitted is the indented `property alias` declaration
`"\n    property alias als_cppObj_interval: cppObj.interval"`, which differs
from the claim's `alias als_cppObj_interval: cppObj.interval` form of the
inserted declaration. -/
theorem c6_insertion_text_counterexample :
    (emitCppBindingWarning tExample 2 3 bInterval "cppObj" "interval").map
        (fun d => d.fix.insertions.map Prod.snd) =
      some ["\n    property alias als_cppObj_interval: cppObj.interval"] ∧
      ("\n    property alias als_cppObj_interval: cppObj.interval" : String) ≠
        "\nalias als_cppObj_interval: cppObj.interval" := by
  decide

/-- C6 as amended: for every emitted warning the alias name is
`als_<objectId>_<propertyName>`, the single insertion text is the
new-line-prefixed indented declaration
`"\n    property alias <aliasName>: <objectId>.<propertyName>"` (with the
keyword `property` and four spaces of indentation, not the bare `alias`
form), and the single replacement substitutes exactly the alias name for the
binding's full source span. -/
theorem c6_fix_descriptor_content (t : ElementTree) (i fuel : Nat)
    (b : Binding) (objectId propertyName : String) (d : Diagnostic)
    (h : emitCppBindingWarning t i fuel b objectId propertyName = some d) :
    d.fix.replacements = [(b.span, "als_" ++ objectId ++ "_" ++ propertyName)] ∧
      ∃ loc, d.fix.insertions =
        [(loc, "\n    property alias " ++ ("als_" ++ objectId ++ "_" ++ propertyName) ++
          ": " ++ objectId ++ "." ++ propertyName)] := by
  unfold emitCppBindingWarning at h
  cases hroot : getRootElement t fuel i with
  | none => rw [hroot] at h; cases h
  | some rootE =>
    rw [hroot] at h
    simp only [Option.some.injEq] at h
    subst h
    exact ⟨rfl, ⟨_, rfl⟩⟩

/-- C6 amended witness: the fix content of the diagnostic emitted on the
worked example. -/
theorem c6_fix_descriptor_content_witness :
    dExample.fix.replacements = [(bInterval.span, "als_" ++ "cppObj" ++ "_" ++ "interval")] ∧
      ∃ loc, dExample.fix.insertions =
        [(loc, "\n    property alias " ++ ("als_" ++ "cppObj" ++ "_" ++ "interval") ++
          ": " ++ "cppObj" ++ "." ++ "interval")] :=
  c6_fix_descriptor_content tExample 2 3 bInterval "cppObj" "interval" dExample (by decide)

/-- C7: the insertion offset is `offset + length - 1` in unsigned 32-bit
arithmetic with no guard for an empty root span.  On `tEmptySpan` (root span
offset 5, length 0) the pass emits a diagnostic whose insertion offset is 4,
strictly below the root element's starting offset 5 — the out-of-range edit
the claim requires to be clamped or skipped; at offset 0 the subtraction
wraps around to `2^32 - 1`. -/
theorem c7_unguarded_empty_span :
    insertOffset 5 0 = 4 ∧ insertOffset 0 0 = 4294967295 ∧
      (checkCppObjectBindings tEmptySpan 2 3).map
          (fun ds => ds.map fun d => d.fix.insertions.map fun ed => ed.1.offset) =
        some [[4]] ∧ 4 < 5 := by
  decide

/-- C1: for every binding whose expression matches the candidate pattern and
parses to `(objId, prop)`, where `objId` resolves through the enclosing-scope
search to a native object, `prop` contains no enum-exemption term and the
expression contains no `::`, processing that binding emits exactly one
diagnostic (carrying, by construction, exactly one fix suggestion); when the
element's binding list consists of that binding, the `run` entry point emits
exactly that one diagnostic. -/
theorem c1_exactly_one_diagnostic (t : ElementTree) (i fuel : Nat) (b : Binding)
    (objId prop : String)
    (hpd : parentsDecreasing t = true) (hi : i < t.elems.length) (hf : i < fuel)
    (hm : cppRefMatch b.expressionText.data = true)
    (hp : parseCppObjectReference b.expressionText = some (objId, prop))
    (hr : isCppRegisteredObject t objId i fuel = some true)
    (hs1 : qContains prop "State" = false) (hs2 : qContains prop "Mode" = false)
    (hs3 : qContains prop "Type" = false) (hs4 : qContains prop "Policy" = false)
    (hq : qContains b.expressionText "::" = false) :
    ∃ d, processBinding t i fuel b = some [d] ∧
      ∀ e, t.elems.get? i = some e → e.bindings = [b] →
        run t i fuel = some [d] := by
  obtain ⟨p0, p1, rest, hsplit, hobj, hprop⟩ := splitOnDot_shape_of_parse hp
  have hhead : (splitOnDot b.expressionText.data).headD [] = p0 := by
    rw [hsplit]; rfl
  have hcb : isCppObjectBinding t i fuel b.expressionText = some true := by
    unfold isCppObjectBinding
    rw [if_pos hm, hhead, ← hobj]
    exact hr
  have henum : isEnumBinding b.expressionText = false := by
    simp [isEnumBinding, hp, hs1, hs2, hs3, hs4, hq]
  obtain ⟨rootE, hroot, -⟩ := getRootElement_isSome hpd i hi fuel hf
  have hemit : emitCppBindingWarning t i fuel b objId prop =
      some (mkWarning b objId prop rootE.span) := by
    unfold emitCppBindingWarning
    rw [hroot]
  have hpb : processBinding t i fuel b = some [mkWarning b objId prop rootE.span] := by
    simp only [processBinding, hcb, hp, cppObjectReference, henum, hemit,
      Bool.false_eq_true, if_false]
    rfl
  refine ⟨mkWarning b objId prop rootE.span, hpb, fun e he hbs => ?_⟩
  unfold run checkCppObjectBindings
  rw [he]
  simp only [hbs, processBindings, hpb, List.append_nil]

/-- C1 witness: on the specification's worked example the binding
`cppObj.interval` produces exactly one diagnostic, and `run` on its element
emits exactly that diagnostic. -/
theorem c1_exactly_one_diagnostic_witness :
    ∃ d, processBinding tExample 2 3 bInterval = some [d] ∧
      ∀ e, tExample.elems.get? 2 = some e → e.bindings = [bInterval] →
        run tExample 2 3 = some [d] :=
  c1_exactly_one_diagnostic tExample 2 3 bInterval "cppObj" "interval"
    (by decide) (by decide) (by decide) (by decide) (by decide) (by decide)
    (by decide) (by decide) (by decide) (by decide) (by decide)

end D03
